import Mathlib

/-!
# TradingSimulator — verification of the spec claims

Shallow embedding of the TradingSimulator repository's core logic:

* the zustand trading store (`tradingStore`): portfolio/ledger state, the
  actions `recalcPortfolio`, `setCurrentPrice`, `setBalance`,
  `updatePortfolio`, `closePosition`, `executeMarketOrder`,
  `updateLastCandle`, `addCandle`, `setCandles`;
* the market-data hook (`useMarketData`): `updateCandle` (live tick folding)
  and the historical-batch normalization in `fetchHistoricalData`;
* the order form (`OrderForm.handleSubmit`): the market-order submit path;
* the DEX price layer (`fetchDexPrice` in the api module) and the polling
  loop of `useDexScreenerData`.

Modelling conventions: JavaScript numbers are modelled as `ℚ`; timestamps
(milliseconds) as `ℕ`.  Environment-produced values (`Date.now()`,
`crypto.randomUUID()`) are passed in as parameters or omitted (the `id`
fields, which no claim mentions, are omitted).  Network I/O is modelled as
an explicit environment function.
-/

namespace TradingSim

/-- Order side, `'buy' | 'sell'` in the source. -/
inductive Side where
  | buy
  | sell
deriving DecidableEq, Repr

/-- The source's inline ternary `side === 'buy' ? 'sell' : 'buy'`. -/
def Side.flip : Side → Side
  | .buy => .sell
  | .sell => .buy

/-- The source's inline ternary `side === 'buy' ? 1 : -1`. -/
def Side.sign : Side → ℚ
  | .buy => 1
  | .sell => -1

/-- Position type from `types/trading.ts`. -/
structure Position where
  symbol : String
  side : Side
  quantity : ℚ
  avgEntryPrice : ℚ
  currentPrice : ℚ
  unrealizedPnL : ℚ
  unrealizedPnLPercent : ℚ
  realizedPnL : ℚ
deriving DecidableEq, Repr

/-- Portfolio type from `types/trading.ts`. -/
structure Portfolio where
  balance : ℚ
  equity : ℚ
  buyingPower : ℚ
  positions : List Position
  dailyPnL : ℚ
  totalPnL : ℚ
deriving DecidableEq, Repr

/-- TradeRecord from `types/trading.ts` (the environment-generated `id`
string is omitted; no claim refers to it). -/
structure TradeRecord where
  symbol : String
  side : Side
  quantity : ℚ
  price : ℚ
  pnl : ℚ
  timestamp : ℕ
deriving DecidableEq, Repr

/-- Order type from `types/trading.ts`. -/
inductive OrderType where
  | market
  | limit
  | stop
  | stop_limit
  | take_profit
  | trailing_stop
deriving DecidableEq, Repr

/-- Order status from `types/trading.ts`. -/
inductive OrderStatus where
  | pending
  | openOrder
  | filled
  | partially_filled
  | cancelled
  | rejected
deriving DecidableEq, Repr

/-- Order from `types/trading.ts` (environment-generated `id` omitted). -/
structure Order where
  symbol : String
  side : Side
  type : OrderType
  quantity : ℚ
  price : Option ℚ := none
  status : OrderStatus
  filledQuantity : ℚ
  avgFillPrice : Option ℚ := none
  createdAt : ℕ
  updatedAt : ℕ
deriving DecidableEq, Repr

/-- Candle from `types/trading.ts`: `{time, open, high, low, close, volume}`.
The `open` field is written `openP` because `open` is a Lean keyword. -/
structure Candle where
  time : ℕ
  openP : ℚ
  high : ℚ
  low : ℚ
  close : ℚ
  volume : ℚ
deriving DecidableEq, Repr

/-- The slice of the zustand `TradingState` that the verified actions
read and write (market data, portfolio, histories). -/
structure TradingState where
  currentSymbol : String
  candles : List Candle
  currentPrice : ℚ
  portfolio : Portfolio
  tradeHistory : List TradeRecord
  orderHistory : List Order
deriving DecidableEq, Repr

/-- Initial store state from `tradingStore` (`INITIAL_BALANCE = 100000`). -/
def initialState : TradingState :=
  { currentSymbol := "BTCUSDT"
    candles := []
    currentPrice := 0
    portfolio :=
      { balance := 100000, equity := 100000, buyingPower := 100000
        positions := [], dailyPnL := 0, totalPnL := 0 }
    tradeHistory := []
    orderHistory := [] }

/-- `recalcPortfolio` from `tradingStore`: equity = balance plus the
mark-to-market value of the open positions; buyingPower = balance. -/
def recalcPortfolio (balance : ℚ) (positions : List Position) : ℚ × ℚ :=
  let positionMarketValue :=
    positions.foldl (fun sum pos => sum + pos.currentPrice * pos.quantity) 0
  (balance + positionMarketValue, balance)

/-- The spec's portfolio invariant:
`equity == balance + Σ(position.currentPrice × position.quantity)` and
`buyingPower == balance`. -/
def portfolioInvariant (p : Portfolio) : Prop :=
  p.equity = p.balance +
      p.positions.foldl (fun sum pos => sum + pos.currentPrice * pos.quantity) 0
    ∧ p.buyingPower = p.balance

instance (p : Portfolio) : Decidable (portfolioInvariant p) := by
  unfold portfolioInvariant; infer_instance

/-- `setCurrentPrice` action: stores the price, recomputes unrealized P&L of
positions in the current symbol and recalculates equity/buyingPower. -/
def setCurrentPrice (state : TradingState) (price : ℚ) : TradingState :=
  let positions := state.portfolio.positions.map (fun pos =>
    if pos.symbol == state.currentSymbol then
      let unrealizedPnL := if pos.side = Side.buy
        then (price - pos.avgEntryPrice) * pos.quantity
        else (pos.avgEntryPrice - price) * pos.quantity
      let unrealizedPnLPercent := unrealizedPnL / (pos.avgEntryPrice * pos.quantity) * 100
      { pos with currentPrice := price, unrealizedPnL := unrealizedPnL,
                 unrealizedPnLPercent := unrealizedPnLPercent }
    else pos)
  let eqbp := recalcPortfolio state.portfolio.balance positions
  { state with
      currentPrice := price
      portfolio := { state.portfolio with
        positions := positions, equity := eqbp.1, buyingPower := eqbp.2 } }

/-- `setBalance` action. -/
def setBalance (state : TradingState) (balance : ℚ) : TradingState :=
  let eqbp := recalcPortfolio balance state.portfolio.positions
  { state with
      portfolio := { state.portfolio with
        balance := balance, equity := eqbp.1, buyingPower := eqbp.2 } }

/-- A `Partial<Portfolio>` patch, as accepted by `updatePortfolio`. -/
structure PortfolioPatch where
  balance : Option ℚ := none
  equity : Option ℚ := none
  buyingPower : Option ℚ := none
  positions : Option (List Position) := none
  dailyPnL : Option ℚ := none
  totalPnL : Option ℚ := none
deriving DecidableEq, Repr

/-- `updatePortfolio` action: spread-merges the patch over the portfolio,
with no recomputation of equity or buyingPower. -/
def updatePortfolio (state : TradingState) (patch : PortfolioPatch) : TradingState :=
  { state with portfolio :=
      { balance := patch.balance.getD state.portfolio.balance
        equity := patch.equity.getD state.portfolio.equity
        buyingPower := patch.buyingPower.getD state.portfolio.buyingPower
        positions := patch.positions.getD state.portfolio.positions
        dailyPnL := patch.dailyPnL.getD state.portfolio.dailyPnL
        totalPnL := patch.totalPnL.getD state.portfolio.totalPnL } }

/-- `addPosition` action: appends a position with no recomputation. -/
def addPosition (state : TradingState) (position : Position) : TradingState :=
  { state with portfolio :=
      { state.portfolio with positions := state.portfolio.positions ++ [position] } }

/-- `closePosition` action from `tradingStore`: closes the whole position for
`symbol` at the current price, or does nothing if there is none. -/
def closePosition (state : TradingState) (symbol : String) (now : ℕ) : TradingState :=
  match state.portfolio.positions.find? (fun p => p.symbol == symbol) with
  | none => state
  | some position =>
    let price := state.currentPrice
    let realizedPnL := if position.side = Side.buy
      then (price - position.avgEntryPrice) * position.quantity
      else (position.avgEntryPrice - price) * position.quantity
    let positionCost := position.avgEntryPrice * position.quantity
    let newBalance := state.portfolio.balance + positionCost + realizedPnL
    let newPositions := state.portfolio.positions.filter (fun p => !(p.symbol == symbol))
    let eqbp := recalcPortfolio newBalance newPositions
    let trade : TradeRecord :=
      { symbol := symbol, side := position.side.flip, quantity := position.quantity
        price := price, pnl := realizedPnL, timestamp := now }
    let order : Order :=
      { symbol := symbol, side := position.side.flip, type := OrderType.market
        quantity := position.quantity, status := OrderStatus.filled
        filledQuantity := position.quantity, avgFillPrice := some price
        createdAt := now, updatedAt := now }
    { state with
        portfolio := { state.portfolio with
          balance := newBalance, equity := eqbp.1, buyingPower := eqbp.2
          positions := newPositions
          totalPnL := state.portfolio.totalPnL + realizedPnL
          dailyPnL := state.portfolio.dailyPnL + realizedPnL }
        tradeHistory := trade :: state.tradeHistory
        orderHistory := order :: state.orderHistory }

/-- Intermediate result of the branchy core of `executeMarketOrder`. -/
structure ExecResult where
  newBalance : ℚ
  newPositions : List Position
  realizedPnL : ℚ
  tradeRecords : List TradeRecord
deriving DecidableEq, Repr

/-- The branch logic of `executeMarketOrder` (everything before the final
`recalcPortfolio`/`set`): same-side add, partial close, full close,
flip, or new position. -/
def execCore (balance : ℚ) (positions : List Position) (symbol : String)
    (side : Side) (qty price : ℚ) (now : ℕ) : ExecResult :=
  let orderValue := qty * price
  match positions.find? (fun p => p.symbol == symbol) with
  | some pos =>
    if pos.side = side then
      let newQty := pos.quantity + qty
      let newAvgPrice := (pos.avgEntryPrice * pos.quantity + price * qty) / newQty
      { newBalance := balance - orderValue
        newPositions := positions.map (fun p =>
          if p.symbol == symbol then
            { p with quantity := newQty, avgEntryPrice := newAvgPrice
                     currentPrice := price
                     unrealizedPnL := (price - newAvgPrice) * newQty * side.sign
                     unrealizedPnLPercent := (price - newAvgPrice) / newAvgPrice * 100 * side.sign }
          else p)
        realizedPnL := 0
        tradeRecords := [{ symbol := symbol, side := side, quantity := qty
                           price := price, pnl := 0, timestamp := now }] }
    else if qty < pos.quantity then
      let closedQty := qty
      let remainingQty := pos.quantity - closedQty
      let realizedPnL := if pos.side = Side.buy
        then (price - pos.avgEntryPrice) * closedQty
        else (pos.avgEntryPrice - price) * closedQty
      let unrealizedPnL := if pos.side = Side.buy
        then (price - pos.avgEntryPrice) * remainingQty
        else (pos.avgEntryPrice - price) * remainingQty
      let unrealizedPnLPercent := unrealizedPnL / (pos.avgEntryPrice * remainingQty) * 100
      { newBalance := balance + (pos.avgEntryPrice * closedQty + realizedPnL)
        newPositions := positions.map (fun p =>
          if p.symbol == symbol then
            { p with quantity := remainingQty, currentPrice := price
                     unrealizedPnL := unrealizedPnL
                     unrealizedPnLPercent := unrealizedPnLPercent }
          else p)
        realizedPnL := realizedPnL
        tradeRecords := [{ symbol := symbol, side := side, quantity := closedQty
                           price := price, pnl := realizedPnL, timestamp := now }] }
    else if qty = pos.quantity then
      let realizedPnL := if pos.side = Side.buy
        then (price - pos.avgEntryPrice) * pos.quantity
        else (pos.avgEntryPrice - price) * pos.quantity
      { newBalance := balance + (pos.avgEntryPrice * pos.quantity + realizedPnL)
        newPositions := positions.filter (fun p => !(p.symbol == symbol))
        realizedPnL := realizedPnL
        tradeRecords := [{ symbol := symbol, side := side, quantity := pos.quantity
                           price := price, pnl := realizedPnL, timestamp := now }] }
    else
      let closedQty := pos.quantity
      let newQty := qty - closedQty
      let realizedPnL := if pos.side = Side.buy
        then (price - pos.avgEntryPrice) * closedQty
        else (pos.avgEntryPrice - price) * closedQty
      { newBalance := balance + (pos.avgEntryPrice * closedQty + realizedPnL) - newQty * price
        newPositions := positions.filter (fun p => !(p.symbol == symbol)) ++
          [{ symbol := symbol, side := side, quantity := newQty
             avgEntryPrice := price, currentPrice := price
             unrealizedPnL := 0, unrealizedPnLPercent := 0, realizedPnL := 0 }]
        realizedPnL := realizedPnL
        tradeRecords :=
          [{ symbol := symbol, side := pos.side.flip, quantity := closedQty
             price := price, pnl := realizedPnL, timestamp := now },
           { symbol := symbol, side := side, quantity := newQty
             price := price, pnl := 0, timestamp := now }] }
  | none =>
    { newBalance := balance - orderValue
      newPositions := positions ++
        [{ symbol := symbol, side := side, quantity := qty
           avgEntryPrice := price, currentPrice := price
           unrealizedPnL := 0, unrealizedPnLPercent := 0, realizedPnL := 0 }]
      realizedPnL := 0
      tradeRecords := [{ symbol := symbol, side := side, quantity := qty
                         price := price, pnl := 0, timestamp := now }] }

/-- `executeMarketOrder` action from `tradingStore`. -/
def executeMarketOrder (state : TradingState) (side : Side) (qty price : ℚ)
    (now : ℕ) : TradingState :=
  let r := execCore state.portfolio.balance state.portfolio.positions
    state.currentSymbol side qty price now
  let eqbp := recalcPortfolio r.newBalance r.newPositions
  let order : Order :=
    { symbol := state.currentSymbol, side := side, type := OrderType.market
      quantity := qty, status := OrderStatus.filled, filledQuantity := qty
      avgFillPrice := some price, createdAt := now, updatedAt := now }
  { state with
      portfolio := { state.portfolio with
        balance := r.newBalance, equity := eqbp.1, buyingPower := eqbp.2
        positions := r.newPositions
        totalPnL := state.portfolio.totalPnL + r.realizedPnL
        dailyPnL := state.portfolio.dailyPnL + r.realizedPnL }
      tradeHistory := r.tradeRecords ++ state.tradeHistory
      orderHistory := order :: state.orderHistory }

example :
    (executeMarketOrder initialState Side.buy 1 50000 0).portfolio.balance = 50000 := by
  simp [executeMarketOrder, execCore, recalcPortfolio, initialState]
  norm_num

example :
    (executeMarketOrder (executeMarketOrder initialState Side.buy 1 50000 0)
      Side.sell 1 55000 1).portfolio.balance = 105000 := by
  simp [executeMarketOrder, execCore, recalcPortfolio, initialState]
  norm_num


/-- The body of the `updateLastCandle` store action, acting on
`state.candles`: replace the last candle when the times match, otherwise
push the candle at the end (an empty series just receives the candle). -/
def updateLastCandle (candles : List Candle) (candle : Candle) : List Candle :=
  match candles.getLast? with
  | some lastCandle =>
    if lastCandle.time = candle.time then candles.dropLast ++ [candle]
    else candles ++ [candle]
  | none => [candle]

/-- The body of the `addCandle` store action, acting on `state.candles`. -/
def addCandle (candles : List Candle) (candle : Candle) : List Candle :=
  candles ++ [candle]

/-- `setCandles` store action: replaces the whole series. -/
def setCandles (state : TradingState) (candles : List Candle) : TradingState :=
  { state with candles := candles }

/-- The `updateCandle` helper of `useMarketData` together with the
`updateLastCandle` store calls it makes: fold a live tick (price at
`tradeTime` ms) into the hook\'s current candle `candleRef` and the series,
for a candle interval of `intervalMs` ms.
`Math.floor(tradeTime / candleInterval) * candleInterval` is
`tradeTime / intervalMs * intervalMs` on `ℕ` (`Nat` division is floor
division).  Returns the updated series and the updated `candleRef`. -/
def tickStep (candles : List Candle) (candleRef : Option Candle) (price : ℚ)
    (tradeTime intervalMs : ℕ) : List Candle × Option Candle :=
  match candleRef with
  | none => (candles, none)
  | some c =>
    let currentCandleStart := tradeTime / intervalMs * intervalMs
    if c.time = currentCandleStart then
      let c2 : Candle :=
        { time := currentCandleStart, openP := c.openP, high := max c.high price,
          low := min c.low price, close := price, volume := c.volume }
      (updateLastCandle candles c2, some c2)
    else if currentCandleStart > c.time then
      let c2 : Candle :=
        { time := currentCandleStart, openP := price, high := price, low := price,
          close := price, volume := 0 }
      (updateLastCandle candles c2, some c2)
    else (candles, some c)

/-- One row of the Coinbase historical-candles payload:
`[timestamp(seconds), low, high, open, close, volume]`. -/
structure CoinbaseRow where
  timestamp : ℕ
  low : ℚ
  high : ℚ
  openP : ℚ
  close : ℚ
  volume : ℚ
deriving DecidableEq, Repr

/-- The `.map` step of `fetchHistoricalData`: timestamp seconds →
milliseconds and field reordering into a canonical `Candle`. -/
def normalizeRow (c : CoinbaseRow) : Candle :=
  { time := c.timestamp * 1000, openP := c.openP, high := c.high, low := c.low,
    close := c.close, volume := c.volume }

/-- The `.map(...).sort((a, b) => a.time - b.time)` normalization of
`fetchHistoricalData` (a stable comparator sort, modelled as insertion
sort on `time`); the result is handed to `setCandles`. -/
def normalizeBatch (rows : List CoinbaseRow) : List Candle :=
  (rows.map normalizeRow).insertionSort (fun a b => a.time ≤ b.time)

/-- The market-order path of `OrderForm.handleSubmit` (for market orders
the effective price is the live `currentPrice`): the price guards, the
sell-all shortcut, the clamp of the sell quantity to the position size,
the 0.01% full-close epsilon, the buy/sell validation, and the dispatch
to `closePosition` / `executeMarketOrder`. -/
def handleSubmitMarket (state : TradingState) (side : Side) (sellAll : Bool)
    (effectiveQty : ℚ) (now : ℕ) : TradingState :=
  if state.currentPrice ≤ 0 then state
  else
    let price := state.currentPrice
    let existingPosition :=
      state.portfolio.positions.find? (fun p => p.symbol == state.currentSymbol)
    if side = Side.sell ∧ sellAll = true ∧ existingPosition.isSome then
      closePosition state state.currentSymbol now
    else if effectiveQty ≤ 0 then state
    else
      match side, existingPosition with
      | Side.sell, some pos =>
        let qty := if effectiveQty > pos.quantity then pos.quantity else effectiveQty
        if qty > pos.quantity * (9999 / 10000) then
          closePosition state state.currentSymbol now
        else executeMarketOrder state Side.sell qty price now
      | Side.sell, none => state
      | Side.buy, _ =>
        if effectiveQty * price > state.portfolio.buyingPower then state
        else executeMarketOrder state Side.buy effectiveQty price now

/-- Connection status enum. -/
inductive ConnStatus where
  | disconnected
  | connecting
  | connected
  | error
deriving DecidableEq, Repr

/-- The four DEX price providers of the api module. -/
inductive DexSource where
  | jupiter
  | raydium
  | gecko
  | dexscreener
deriving DecidableEq, Repr

/-- A provider\'s parsed price payload, before the api module tags it with
its `source` (the per-provider JSON shapes are abstracted away; what each
`tryX` function extracts is a price plus optional 24h stats and pair
address). -/
structure RawDexPrice where
  price : ℚ
  change24h : ℚ
  volume24h : ℚ
  pairAddress : String
deriving DecidableEq, Repr

/-- `DexPriceResult` from the api module. -/
structure DexPriceResult where
  price : ℚ
  change24h : ℚ
  volume24h : ℚ
  pairAddress : String
  source : DexSource
deriving DecidableEq, Repr

/-- One polling cycle\'s network environment: for each provider, either the
parsed payload of a successful response or `none` for a failure (HTTP
error, timeout, malformed payload). -/
def DexEnv : Type := DexSource → Option RawDexPrice

/-- One `tryJupiter`/`tryRaydium`/`tryGecko`/`tryDexScreener` attempt:
every one of these functions throws unless it extracted a price `> 0`, and
tags the result with its own `source` name. -/
def tryProvider (env : DexEnv) (p : DexSource) : Option DexPriceResult :=
  match env p with
  | none => none
  | some raw =>
    if 0 < raw.price then
      some { price := raw.price, change24h := raw.change24h,
             volume24h := raw.volume24h, pairAddress := raw.pairAddress, source := p }
    else none

/-- The fixed fallback chain of `fetchDexPrice`: Jupiter then Raydium for
Solana symbols, then GeckoTerminal, then DexScreener. -/
def fallbackChain (isSolana : Bool) : List DexSource :=
  (if isSolana then [DexSource.jupiter, DexSource.raydium] else []) ++
    [DexSource.gecko, DexSource.dexscreener]

/-- Walk a provider chain, returning the first success together with the
list of providers actually queried. -/
def walkChain (env : DexEnv) : List DexSource → Option DexPriceResult × List DexSource
  | [] => (none, [])
  | p :: rest =>
    match tryProvider env p with
    | some r => (some r, [p])
    | none =>
      let w := walkChain env rest
      (w.1, p :: w.2)

/-- `fetchDexPrice` from the api module (web path): try the cached
preferred source first; on its failure or absence walk the fixed fallback
chain.  Also returns the list of providers queried, in order. -/
def fetchDexPrice (env : DexEnv) (isSolana : Bool)
    (preferredSource : Option DexSource) : Option DexPriceResult × List DexSource :=
  match preferredSource with
  | some p =>
    match tryProvider env p with
    | some r => (some r, [p])
    | none =>
      let w := walkChain env (fallbackChain isSolana)
      (w.1, p :: w.2)
  | none => walkChain env (fallbackChain isSolana)

/-- The state of the fast price-polling loop of `useDexScreenerData`
(`pollCount`, `preferredSourceRef`, `lastPriceRef`, connection status). -/
structure DexPollState where
  pollCount : ℕ
  preferredSource : Option DexSource
  lastPrice : ℚ
  connectionStatus : ConnStatus
deriving DecidableEq, Repr

/-- The preference actually used by a poll: `fetchPrice` increments
`pollCount` and clears the preference on every 60th poll before fetching. -/
def prefAfterReset (st : DexPollState) : Option DexSource :=
  if (st.pollCount + 1) % 60 = 0 then none else st.preferredSource

/-- One iteration of `fetchPrice` in `useDexScreenerData`: reset the
preference every 60th poll, fetch, and on success record the price, cache
the winning source and set status `connected`; on failure set status
`error` only when no price was ever obtained. -/
def pollStep (env : DexEnv) (isSolana : Bool) (st : DexPollState) : DexPollState :=
  let cnt := st.pollCount + 1
  let pref := prefAfterReset st
  match (fetchDexPrice env isSolana pref).1 with
  | some r =>
    if r.price = 0 then { st with pollCount := cnt, preferredSource := pref }
    else
      { pollCount := cnt, preferredSource := some r.source, lastPrice := r.price,
        connectionStatus := ConnStatus.connected }
  | none =>
    { st with
        pollCount := cnt
        preferredSource := pref
        connectionStatus :=
          (if st.lastPrice = 0 then ConnStatus.error else st.connectionStatus) }

/-- A sequence of polling iterations, one environment per poll. -/
def runPolls (isSolana : Bool) (envs : List DexEnv) (st : DexPollState) : DexPollState :=
  envs.foldl (fun s env => pollStep env isSolana s) st


/-! ## Generic list helpers used by several proofs -/

theorem find?_append_none {α : Type} (p : α → Bool) {l₁ : List α} (l₂ : List α)
    (h : l₁.find? p = none) : (l₁ ++ l₂).find? p = l₂.find? p := by
  induction l₁ with
  | nil => simp
  | cons a l ih =>
    rw [List.find?_cons] at h
    cases hpa : p a with
    | true => simp [hpa] at h
    | false =>
      simp only [hpa] at h
      simp [List.find?_cons, hpa, ih h]

theorem find?_filter_not {α : Type} (q : α → Bool) (l : List α) :
    (l.filter (fun a => !(q a))).find? q = none := by
  induction l with
  | nil => simp
  | cons a l ih =>
    cases hqa : q a with
    | true => simp [List.filter_cons, hqa, ih]
    | false => simp [List.filter_cons, hqa, List.find?_cons, ih]

theorem find?_map_if {α : Type} (q : α → Bool) (g : α → α)
    (hq : ∀ x, q (g x) = q x) (l : List α) :
    (l.map (fun x => if q x then g x else x)).find? q = (l.find? q).map g := by
  induction l with
  | nil => simp
  | cons a l ih =>
    cases hqa : q a with
    | true => simp [List.find?_cons, hqa, hq a]
    | false => simp [List.find?_cons, hqa, ih]

/-! ## C1 — portfolio invariant -/

theorem recalcPortfolio_inv (b : ℚ) (ps : List Position) :
    (recalcPortfolio b ps).1 =
      b + ps.foldl (fun sum pos => sum + pos.currentPrice * pos.quantity) 0
    ∧ (recalcPortfolio b ps).2 = b := by
  simp [recalcPortfolio]

/-- C1 (amended): `executeMarketOrder`, `setCurrentPrice` and `setBalance`
always re-establish `equity = balance + Σ(position.currentPrice ×
position.quantity)` and `buyingPower = balance`; `closePosition` either
leaves the state entirely unchanged (no position for the symbol) or
re-establishes the invariant.  (The remaining portfolio-writing actions —
`updatePortfolio`, `addPosition`, `updatePosition` — merge fields without
recomputation and do not maintain the invariant; see the counterexample.) -/
theorem claim_C1_amended :
    (∀ (s : TradingState) (side : Side) (qty price : ℚ) (now : ℕ),
      portfolioInvariant ((executeMarketOrder s side qty price now).portfolio))
    ∧ (∀ (s : TradingState) (sym : String) (now : ℕ),
      closePosition s sym now = s
        ∨ portfolioInvariant ((closePosition s sym now).portfolio))
    ∧ (∀ (s : TradingState) (price : ℚ),
      portfolioInvariant ((setCurrentPrice s price).portfolio))
    ∧ (∀ (s : TradingState) (b : ℚ),
      portfolioInvariant ((setBalance s b).portfolio)) := by
  refine ⟨?_, ?_, ?_, ?_⟩
  · intro s side qty price now
    simp [executeMarketOrder, recalcPortfolio, portfolioInvariant]
  · intro s sym now
    unfold closePosition
    cases h : s.portfolio.positions.find? (fun p => p.symbol == sym) with
    | none => exact Or.inl rfl
    | some pos =>
      exact Or.inr (by simp [recalcPortfolio, portfolioInvariant])
  · intro s price
    simp [setCurrentPrice, recalcPortfolio, portfolioInvariant]
  · intro s b
    simp [setBalance, recalcPortfolio, portfolioInvariant]

/-- C1 counterexample: the claim quantifies over all portfolio-writing
store actions, but `updatePortfolio` merges a partial patch without
recomputing; patching `equity` alone breaks the invariant. -/
theorem claim_C1_counterexample :
    portfolioInvariant initialState.portfolio
    ∧ ¬ portfolioInvariant
        ((updatePortfolio initialState { equity := some 123 }).portfolio) := by
  constructor
  · constructor <;> simp [initialState]
  · intro hinv
    have h := hinv.1
    simp [updatePortfolio, initialState] at h

/-! ## C10 — closePosition with no open position is a no-op -/

/-- C10: when no open position exists for the symbol, `closePosition`
returns the state unchanged — balance, equity, positions, totalPnL,
dailyPnL, trade history and order history are all exactly as before and
nothing is appended. -/
theorem claim_C10 (s : TradingState) (symbol : String) (now : ℕ)
    (h : s.portfolio.positions.find? (fun p => p.symbol == symbol) = none) :
    closePosition s symbol now = s := by
  unfold closePosition
  rw [h]

theorem claim_C10_witness :
    closePosition initialState "ETHUSDT" 5 = initialState :=
  claim_C10 initialState "ETHUSDT" 5 (by rfl)


/-! ## Branch characterizations of `execCore` -/

theorem execCore_open (b : ℚ) (positions : List Position) (symbol : String)
    (side : Side) (qty price : ℚ) (now : ℕ)
    (hfind : positions.find? (fun p => p.symbol == symbol) = none) :
    execCore b positions symbol side qty price now =
      { newBalance := b - qty * price
        newPositions := positions ++
          [{ symbol := symbol, side := side, quantity := qty, avgEntryPrice := price,
             currentPrice := price, unrealizedPnL := 0, unrealizedPnLPercent := 0,
             realizedPnL := 0 }]
        realizedPnL := 0
        tradeRecords := [{ symbol := symbol, side := side, quantity := qty,
                           price := price, pnl := 0, timestamp := now }] } := by
  unfold execCore
  rw [hfind]

theorem execCore_partialClose (b : ℚ) (positions : List Position) (symbol : String)
    (side : Side) (qty price : ℚ) (now : ℕ) (pos : Position)
    (hfind : positions.find? (fun p => p.symbol == symbol) = some pos)
    (hside : ¬ pos.side = side) (hqty : qty < pos.quantity) :
    execCore b positions symbol side qty price now =
      (let realizedPnL := if pos.side = Side.buy
         then (price - pos.avgEntryPrice) * qty
         else (pos.avgEntryPrice - price) * qty
       let unrealizedPnL := if pos.side = Side.buy
         then (price - pos.avgEntryPrice) * (pos.quantity - qty)
         else (pos.avgEntryPrice - price) * (pos.quantity - qty)
       { newBalance := b + (pos.avgEntryPrice * qty + realizedPnL)
         newPositions := positions.map (fun p =>
           if p.symbol == symbol then
             { p with quantity := pos.quantity - qty, currentPrice := price
                      unrealizedPnL := unrealizedPnL
                      unrealizedPnLPercent :=
                        unrealizedPnL / (pos.avgEntryPrice * (pos.quantity - qty)) * 100 }
           else p)
         realizedPnL := realizedPnL
         tradeRecords := [{ symbol := symbol, side := side, quantity := qty,
                            price := price, pnl := realizedPnL, timestamp := now }] }) := by
  unfold execCore
  rw [hfind]
  simp only [if_neg hside, if_pos hqty]

theorem execCore_full (b : ℚ) (positions : List Position) (symbol : String)
    (side : Side) (qty price : ℚ) (now : ℕ) (pos : Position)
    (hfind : positions.find? (fun p => p.symbol == symbol) = some pos)
    (hside : ¬ pos.side = side) (hqty : qty = pos.quantity) :
    execCore b positions symbol side qty price now =
      (let realizedPnL := if pos.side = Side.buy
         then (price - pos.avgEntryPrice) * pos.quantity
         else (pos.avgEntryPrice - price) * pos.quantity
       { newBalance := b + (pos.avgEntryPrice * pos.quantity + realizedPnL)
         newPositions := positions.filter (fun p => !(p.symbol == symbol))
         realizedPnL := realizedPnL
         tradeRecords := [{ symbol := symbol, side := side, quantity := pos.quantity,
                            price := price, pnl := realizedPnL, timestamp := now }] }) := by
  subst hqty
  unfold execCore
  rw [hfind]
  simp only [if_neg hside, lt_irrefl, if_false, if_pos rfl, if_true]

theorem execCore_flip (b : ℚ) (positions : List Position) (symbol : String)
    (side : Side) (qty price : ℚ) (now : ℕ) (pos : Position)
    (hfind : positions.find? (fun p => p.symbol == symbol) = some pos)
    (hside : ¬ pos.side = side) (hqty : pos.quantity < qty) :
    execCore b positions symbol side qty price now =
      (let realizedPnL := if pos.side = Side.buy
         then (price - pos.avgEntryPrice) * pos.quantity
         else (pos.avgEntryPrice - price) * pos.quantity
       { newBalance := b + (pos.avgEntryPrice * pos.quantity + realizedPnL)
           - (qty - pos.quantity) * price
         newPositions := positions.filter (fun p => !(p.symbol == symbol)) ++
           [{ symbol := symbol, side := side, quantity := qty - pos.quantity
              avgEntryPrice := price, currentPrice := price
              unrealizedPnL := 0, unrealizedPnLPercent := 0, realizedPnL := 0 }]
         realizedPnL := realizedPnL
         tradeRecords :=
           [{ symbol := symbol, side := pos.side.flip, quantity := pos.quantity
              price := price, pnl := realizedPnL, timestamp := now },
            { symbol := symbol, side := side, quantity := qty - pos.quantity
              price := price, pnl := 0, timestamp := now }] }) := by
  unfold execCore
  rw [hfind]
  simp only [if_neg hside, if_neg (lt_asymm hqty), if_neg (ne_of_gt hqty)]

/-! ## Projections of `executeMarketOrder` -/

theorem exec_balance (s : TradingState) (side : Side) (qty price : ℚ) (now : ℕ) :
    (executeMarketOrder s side qty price now).portfolio.balance =
      (execCore s.portfolio.balance s.portfolio.positions s.currentSymbol
        side qty price now).newBalance := rfl

theorem exec_positions (s : TradingState) (side : Side) (qty price : ℚ) (now : ℕ) :
    (executeMarketOrder s side qty price now).portfolio.positions =
      (execCore s.portfolio.balance s.portfolio.positions s.currentSymbol
        side qty price now).newPositions := rfl

theorem exec_totalPnL (s : TradingState) (side : Side) (qty price : ℚ) (now : ℕ) :
    (executeMarketOrder s side qty price now).portfolio.totalPnL =
      s.portfolio.totalPnL +
        (execCore s.portfolio.balance s.portfolio.positions s.currentSymbol
          side qty price now).realizedPnL := rfl

theorem exec_tradeHistory (s : TradingState) (side : Side) (qty price : ℚ) (now : ℕ) :
    (executeMarketOrder s side qty price now).tradeHistory =
      (execCore s.portfolio.balance s.portfolio.positions s.currentSymbol
        side qty price now).tradeRecords ++ s.tradeHistory := rfl

theorem exec_currentSymbol (s : TradingState) (side : Side) (qty price : ℚ) (now : ℕ) :
    (executeMarketOrder s side qty price now).currentSymbol = s.currentSymbol := rfl

theorem Side.flip_ne (side : Side) : ¬ side = side.flip := by
  cases side <;> simp [Side.flip]


/-! ## C2 — position flip -/

/-- C2: executing an opposite-side market order with quantity greater than
the open position realizes pnl on the full position quantity ((p − e)·q0
long, (e − p)·q0 short), credits the balance by e·q0 + pnl and debits the
remainder cost (q − q0)·p, replaces the position by one of the order\'s
side with quantity q − q0 at avgEntryPrice = p and zero unrealized P&L,
and appends exactly two trade records: the close carrying the realized pnl
and the open with pnl 0. -/
theorem claim_C2 (s : TradingState) (side : Side) (pos : Position)
    (qty price : ℚ) (now : ℕ)
    (hfind : s.portfolio.positions.find? (fun p => p.symbol == s.currentSymbol) = some pos)
    (hside : ¬ pos.side = side) (hq0 : 0 < pos.quantity)
    (hqty : pos.quantity < qty) (hp : 0 < price) :
    (executeMarketOrder s side qty price now).portfolio.balance =
        s.portfolio.balance
          + (pos.avgEntryPrice * pos.quantity
              + (if pos.side = Side.buy then (price - pos.avgEntryPrice) * pos.quantity
                 else (pos.avgEntryPrice - price) * pos.quantity))
          - (qty - pos.quantity) * price
    ∧ (executeMarketOrder s side qty price now).portfolio.positions.find?
        (fun p => p.symbol == s.currentSymbol) =
        some { symbol := s.currentSymbol, side := side, quantity := qty - pos.quantity
               avgEntryPrice := price, currentPrice := price, unrealizedPnL := 0
               unrealizedPnLPercent := 0, realizedPnL := 0 }
    ∧ (executeMarketOrder s side qty price now).tradeHistory =
        { symbol := s.currentSymbol, side := pos.side.flip, quantity := pos.quantity
          price := price
          pnl := (if pos.side = Side.buy then (price - pos.avgEntryPrice) * pos.quantity
                  else (pos.avgEntryPrice - price) * pos.quantity)
          timestamp := now } ::
        { symbol := s.currentSymbol, side := side, quantity := qty - pos.quantity
          price := price, pnl := 0, timestamp := now } :: s.tradeHistory
    ∧ (executeMarketOrder s side qty price now).portfolio.totalPnL =
        s.portfolio.totalPnL
          + (if pos.side = Side.buy then (price - pos.avgEntryPrice) * pos.quantity
             else (pos.avgEntryPrice - price) * pos.quantity) := by
  have hcore := execCore_flip s.portfolio.balance s.portfolio.positions s.currentSymbol
    side qty price now pos hfind hside hqty
  refine ⟨?_, ?_, ?_, ?_⟩
  · rw [exec_balance, hcore]
  · rw [exec_positions, hcore]
    dsimp only
    rw [find?_append_none _ _ (find?_filter_not _ _)]
    simp [List.find?_cons]
  · rw [exec_tradeHistory, hcore]
    rfl
  · rw [exec_totalPnL, hcore]

/-- C2 witness: the spec\'s example — long 10 @ 100, sell 15 @ 120 realizes
200 and leaves a short of 5 @ 120. -/
theorem claim_C2_witness :
    (let st : TradingState :=
      { currentSymbol := "BTCUSDT", candles := [], currentPrice := 100
        portfolio :=
          { balance := 99000, equity := 100000, buyingPower := 99000
            positions := [{ symbol := "BTCUSDT", side := Side.buy, quantity := 10
                            avgEntryPrice := 100, currentPrice := 100, unrealizedPnL := 0
                            unrealizedPnLPercent := 0, realizedPnL := 0 }]
            dailyPnL := 0, totalPnL := 0 }
        tradeHistory := [], orderHistory := [] }
     (executeMarketOrder st Side.sell 15 120 7).portfolio.totalPnL = 200
     ∧ (executeMarketOrder st Side.sell 15 120 7).portfolio.positions.find?
         (fun p => p.symbol == "BTCUSDT") =
         some { symbol := "BTCUSDT", side := Side.sell, quantity := 5
                avgEntryPrice := 120, currentPrice := 120, unrealizedPnL := 0
                unrealizedPnLPercent := 0, realizedPnL := 0 }) := by
  have h := claim_C2
    { currentSymbol := "BTCUSDT", candles := [], currentPrice := 100
      portfolio :=
        { balance := 99000, equity := 100000, buyingPower := 99000
          positions := [{ symbol := "BTCUSDT", side := Side.buy, quantity := 10
                          avgEntryPrice := 100, currentPrice := 100, unrealizedPnL := 0
                          unrealizedPnLPercent := 0, realizedPnL := 0 }]
          dailyPnL := 0, totalPnL := 0 }
      tradeHistory := [], orderHistory := [] }
    Side.sell
    { symbol := "BTCUSDT", side := Side.buy, quantity := 10
      avgEntryPrice := 100, currentPrice := 100, unrealizedPnL := 0
      unrealizedPnLPercent := 0, realizedPnL := 0 }
    15 120 7 (by rfl) (by simp) (by norm_num) (by norm_num) (by norm_num)
  refine ⟨?_, ?_⟩
  · have h4 := h.2.2.2
    norm_num at h4
    exact h4
  · have h2 := h.2.1
    norm_num at h2
    exact h2

/-! ## C3 — open/close round trip -/

/-- C3: with no open position for the symbol, a market order of quantity q
at price p followed by the opposite-side order of the same quantity at the
same price leaves the balance and the accumulated realized P&L exactly as
before. -/
theorem claim_C3 (s : TradingState) (side : Side) (qty price : ℚ) (n₁ n₂ : ℕ)
    (hfind : s.portfolio.positions.find? (fun p => p.symbol == s.currentSymbol) = none)
    (hq : 0 < qty) (hp : 0 < price) :
    (executeMarketOrder (executeMarketOrder s side qty price n₁)
        side.flip qty price n₂).portfolio.balance = s.portfolio.balance
    ∧ (executeMarketOrder (executeMarketOrder s side qty price n₁)
        side.flip qty price n₂).portfolio.totalPnL = s.portfolio.totalPnL := by
  have h1 := execCore_open s.portfolio.balance s.portfolio.positions s.currentSymbol
    side qty price n₁ hfind
  have hpos1 : (executeMarketOrder s side qty price n₁).portfolio.positions =
      s.portfolio.positions ++
        [{ symbol := s.currentSymbol, side := side, quantity := qty
           avgEntryPrice := price, currentPrice := price, unrealizedPnL := 0
           unrealizedPnLPercent := 0, realizedPnL := 0 }] := by
    rw [exec_positions, h1]
  have hbal1 : (executeMarketOrder s side qty price n₁).portfolio.balance =
      s.portfolio.balance - qty * price := by
    rw [exec_balance, h1]
  have hpnl1 : (executeMarketOrder s side qty price n₁).portfolio.totalPnL =
      s.portfolio.totalPnL := by
    rw [exec_totalPnL, h1]
    exact add_zero _
  have hfind1 : (executeMarketOrder s side qty price n₁).portfolio.positions.find?
      (fun p => p.symbol ==
        (executeMarketOrder s side qty price n₁).currentSymbol) =
      some { symbol := s.currentSymbol, side := side, quantity := qty
             avgEntryPrice := price, currentPrice := price, unrealizedPnL := 0
             unrealizedPnLPercent := 0, realizedPnL := 0 } := by
    rw [exec_currentSymbol, hpos1, find?_append_none _ _ hfind]
    simp [List.find?_cons]
  have h2 := execCore_full
    (executeMarketOrder s side qty price n₁).portfolio.balance
    (executeMarketOrder s side qty price n₁).portfolio.positions
    (executeMarketOrder s side qty price n₁).currentSymbol
    side.flip qty price n₂ _ hfind1 (by simpa using Side.flip_ne side) rfl
  constructor
  · rw [exec_balance, h2]
    show (executeMarketOrder s side qty price n₁).portfolio.balance
        + (price * qty + _) = _
    rw [hbal1]
    cases side <;> simp [Side.flip] <;> ring
  · rw [exec_totalPnL, h2]
    show (executeMarketOrder s side qty price n₁).portfolio.totalPnL
        + _ = _
    rw [hpnl1]
    cases side <;> simp [Side.flip]

theorem claim_C3_witness :
    (executeMarketOrder (executeMarketOrder initialState Side.buy 2 300 1)
        Side.buy.flip 2 300 2).portfolio.balance = initialState.portfolio.balance
    ∧ (executeMarketOrder (executeMarketOrder initialState Side.buy 2 300 1)
        Side.buy.flip 2 300 2).portfolio.totalPnL =
          initialState.portfolio.totalPnL :=
  claim_C3 initialState Side.buy 2 300 1 2 (by rfl) (by norm_num) (by norm_num)


/-! ## C4 — partial-close algebra -/

/-- C4: at a constant price, closing 50% of a position and then 50% of the
remainder yields the same final balance and the same cumulative realized
P&L as closing 75% of the original quantity in one order. -/
theorem claim_C4 (s : TradingState) (side : Side) (pos : Position) (price : ℚ)
    (n₁ n₂ n₃ : ℕ)
    (hfind : s.portfolio.positions.find? (fun p => p.symbol == s.currentSymbol) = some pos)
    (hside : ¬ pos.side = side) (hq0 : 0 < pos.quantity) (hp : 0 < price) :
    (executeMarketOrder (executeMarketOrder s side (pos.quantity / 2) price n₁)
        side ((pos.quantity - pos.quantity / 2) / 2) price n₂).portfolio.balance =
      (executeMarketOrder s side (75 / 100 * pos.quantity) price n₃).portfolio.balance
    ∧ (executeMarketOrder (executeMarketOrder s side (pos.quantity / 2) price n₁)
        side ((pos.quantity - pos.quantity / 2) / 2) price n₂).portfolio.totalPnL =
      (executeMarketOrder s side (75 / 100 * pos.quantity) price n₃).portfolio.totalPnL := by
  have h1 := execCore_partialClose s.portfolio.balance s.portfolio.positions s.currentSymbol
    side (pos.quantity / 2) price n₁ pos hfind hside (by linarith)
  have hB := execCore_partialClose s.portfolio.balance s.portfolio.positions s.currentSymbol
    side (75 / 100 * pos.quantity) price n₃ pos hfind hside (by linarith)
  have hbal1 : (executeMarketOrder s side (pos.quantity / 2) price n₁).portfolio.balance =
      s.portfolio.balance + (pos.avgEntryPrice * (pos.quantity / 2) +
        (if pos.side = Side.buy then (price - pos.avgEntryPrice) * (pos.quantity / 2)
         else (pos.avgEntryPrice - price) * (pos.quantity / 2))) := by
    rw [exec_balance, h1]
  have hpnl1 : (executeMarketOrder s side (pos.quantity / 2) price n₁).portfolio.totalPnL =
      s.portfolio.totalPnL +
        (if pos.side = Side.buy then (price - pos.avgEntryPrice) * (pos.quantity / 2)
         else (pos.avgEntryPrice - price) * (pos.quantity / 2)) := by
    rw [exec_totalPnL, h1]
  have hfind1 : (executeMarketOrder s side (pos.quantity / 2) price n₁).portfolio.positions.find?
      (fun p => p.symbol ==
        (executeMarketOrder s side (pos.quantity / 2) price n₁).currentSymbol) =
      some { pos with
             quantity := pos.quantity - pos.quantity / 2, currentPrice := price
             unrealizedPnL :=
               (if pos.side = Side.buy
                then (price - pos.avgEntryPrice) * (pos.quantity - pos.quantity / 2)
                else (pos.avgEntryPrice - price) * (pos.quantity - pos.quantity / 2))
             unrealizedPnLPercent :=
               (if pos.side = Side.buy
                then (price - pos.avgEntryPrice) * (pos.quantity - pos.quantity / 2)
                else (pos.avgEntryPrice - price) * (pos.quantity - pos.quantity / 2)) /
                 (pos.avgEntryPrice * (pos.quantity - pos.quantity / 2)) * 100 } := by
    rw [exec_currentSymbol, exec_positions, h1]
    dsimp only
    rw [find?_map_if (fun p : Position => p.symbol == s.currentSymbol)
      (fun p : Position => { p with
        quantity := pos.quantity - pos.quantity / 2, currentPrice := price
        unrealizedPnL :=
          (if pos.side = Side.buy
           then (price - pos.avgEntryPrice) * (pos.quantity - pos.quantity / 2)
           else (pos.avgEntryPrice - price) * (pos.quantity - pos.quantity / 2))
        unrealizedPnLPercent :=
          (if pos.side = Side.buy
           then (price - pos.avgEntryPrice) * (pos.quantity - pos.quantity / 2)
           else (pos.avgEntryPrice - price) * (pos.quantity - pos.quantity / 2)) /
            (pos.avgEntryPrice * (pos.quantity - pos.quantity / 2)) * 100 })
      (fun x => rfl), hfind]
    rfl
  have h2 := execCore_partialClose
    (executeMarketOrder s side (pos.quantity / 2) price n₁).portfolio.balance
    (executeMarketOrder s side (pos.quantity / 2) price n₁).portfolio.positions
    (executeMarketOrder s side (pos.quantity / 2) price n₁).currentSymbol
    side ((pos.quantity - pos.quantity / 2) / 2) price n₂ _ hfind1 hside
    (by dsimp only; linarith)
  constructor
  · rw [exec_balance (executeMarketOrder s side (pos.quantity / 2) price n₁), h2]
    rw [exec_balance s side (75 / 100 * pos.quantity), hB]
    dsimp only
    rw [hbal1]
    cases hps : pos.side
    all_goals simp only [reduceCtorEq, if_true, if_false, reduceIte]
    all_goals ring
  · rw [exec_totalPnL (executeMarketOrder s side (pos.quantity / 2) price n₁), h2]
    rw [exec_totalPnL s side (75 / 100 * pos.quantity), hB]
    dsimp only
    rw [hpnl1]
    cases hps : pos.side
    all_goals simp only [reduceCtorEq, if_true, if_false, reduceIte]
    all_goals ring


/-- C4 witness: a long position of 8 @ 100 closed 50% then 50% of the
remainder at price 90 matches the single 75% close. -/
theorem claim_C4_witness :
    (let st : TradingState :=
      { currentSymbol := "BTCUSDT", candles := [], currentPrice := 100
        portfolio :=
          { balance := 99200, equity := 100000, buyingPower := 99200
            positions := [{ symbol := "BTCUSDT", side := Side.buy, quantity := 8
                            avgEntryPrice := 100, currentPrice := 100, unrealizedPnL := 0
                            unrealizedPnLPercent := 0, realizedPnL := 0 }]
            dailyPnL := 0, totalPnL := 0 }
        tradeHistory := [], orderHistory := [] }
     (executeMarketOrder (executeMarketOrder st Side.sell ((8 : ℚ) / 2) 90 1)
        Side.sell (((8 : ℚ) - 8 / 2) / 2) 90 2).portfolio.balance =
      (executeMarketOrder st Side.sell ((75 : ℚ) / 100 * 8) 90 3).portfolio.balance
     ∧ (executeMarketOrder (executeMarketOrder st Side.sell ((8 : ℚ) / 2) 90 1)
        Side.sell (((8 : ℚ) - 8 / 2) / 2) 90 2).portfolio.totalPnL =
      (executeMarketOrder st Side.sell ((75 : ℚ) / 100 * 8) 90 3).portfolio.totalPnL) := by
  exact claim_C4
    { currentSymbol := "BTCUSDT", candles := [], currentPrice := 100
      portfolio :=
        { balance := 99200, equity := 100000, buyingPower := 99200
          positions := [{ symbol := "BTCUSDT", side := Side.buy, quantity := 8
                          avgEntryPrice := 100, currentPrice := 100, unrealizedPnL := 0
                          unrealizedPnLPercent := 0, realizedPnL := 0 }]
          dailyPnL := 0, totalPnL := 0 }
      tradeHistory := [], orderHistory := [] }
    Side.sell
    { symbol := "BTCUSDT", side := Side.buy, quantity := 8
      avgEntryPrice := 100, currentPrice := 100, unrealizedPnL := 0
      unrealizedPnLPercent := 0, realizedPnL := 0 }
    90 1 2 3 (by rfl) (by simp) (by norm_num) (by norm_num)

/-! ## C5 — order-form epsilon full close -/

theorem closePosition_eq (s : TradingState) (symbol : String) (now : ℕ)
    (pos : Position)
    (hfind : s.portfolio.positions.find? (fun p => p.symbol == symbol) = some pos) :
    closePosition s symbol now =
      (let realizedPnL := if pos.side = Side.buy
         then (s.currentPrice - pos.avgEntryPrice) * pos.quantity
         else (pos.avgEntryPrice - s.currentPrice) * pos.quantity
       let newBalance := s.portfolio.balance + pos.avgEntryPrice * pos.quantity + realizedPnL
       let newPositions := s.portfolio.positions.filter (fun p => !(p.symbol == symbol))
       { s with
           portfolio := { s.portfolio with
             balance := newBalance
             equity := (recalcPortfolio newBalance newPositions).1
             buyingPower := (recalcPortfolio newBalance newPositions).2
             positions := newPositions
             totalPnL := s.portfolio.totalPnL + realizedPnL
             dailyPnL := s.portfolio.dailyPnL + realizedPnL }
           tradeHistory :=
             { symbol := symbol, side := pos.side.flip, quantity := pos.quantity
               price := s.currentPrice, pnl := realizedPnL, timestamp := now } ::
               s.tradeHistory
           orderHistory :=
             { symbol := symbol, side := pos.side.flip, type := OrderType.market
               quantity := pos.quantity, status := OrderStatus.filled
               filledQuantity := pos.quantity, avgFillPrice := some s.currentPrice
               createdAt := now, updatedAt := now } :: s.orderHistory }) := by
  unfold closePosition
  rw [hfind]

/-- C5: whenever the requested sell quantity against an existing position
exceeds 0.9999 of the position size, `handleSubmit` dispatches
`closePosition` — a full close that removes the position entirely and
realizes pnl over the whole position quantity — never a partial close. -/
theorem claim_C5 (s : TradingState) (pos : Position) (sellAll : Bool)
    (effectiveQty : ℚ) (now : ℕ)
    (hfind : s.portfolio.positions.find? (fun p => p.symbol == s.currentSymbol) = some pos)
    (hq0 : 0 < pos.quantity)
    (heps : pos.quantity * (9999 / 10000) < effectiveQty)
    (hprice : 0 < s.currentPrice) :
    handleSubmitMarket s Side.sell sellAll effectiveQty now =
        closePosition s s.currentSymbol now
    ∧ (closePosition s s.currentSymbol now).portfolio.positions.find?
        (fun p => p.symbol == s.currentSymbol) = none
    ∧ (closePosition s s.currentSymbol now).tradeHistory =
        { symbol := s.currentSymbol, side := pos.side.flip, quantity := pos.quantity
          price := s.currentPrice
          pnl := (if pos.side = Side.buy
                  then (s.currentPrice - pos.avgEntryPrice) * pos.quantity
                  else (pos.avgEntryPrice - s.currentPrice) * pos.quantity)
          timestamp := now } :: s.tradeHistory := by
  have hclose := closePosition_eq s s.currentSymbol now pos hfind
  have heffpos : 0 < effectiveQty :=
    lt_trans (by positivity) heps
  refine ⟨?_, ?_, ?_⟩
  · unfold handleSubmitMarket
    rw [if_neg (not_le.mpr hprice), hfind]
    cases sellAll
    · rw [if_neg (by simp), if_neg (not_le.mpr heffpos)]
      dsimp only
      have hq : (if effectiveQty > pos.quantity then pos.quantity else effectiveQty) >
          pos.quantity * (9999 / 10000) := by
        split
        · nlinarith
        · exact heps
      rw [if_pos hq]
    · rw [if_pos ⟨rfl, rfl, by simp⟩]
  · rw [hclose]
    dsimp only
    exact find?_filter_not _ _
  · rw [hclose]

/-- C5 witness: selling 9.9995 of a 10-unit long (within 0.01% of the full
size) full-closes the position. -/
theorem claim_C5_witness :
    (let st : TradingState :=
      { currentSymbol := "BTCUSDT", candles := [], currentPrice := 120
        portfolio :=
          { balance := 99000, equity := 100200, buyingPower := 99000
            positions := [{ symbol := "BTCUSDT", side := Side.buy, quantity := 10
                            avgEntryPrice := 100, currentPrice := 120, unrealizedPnL := 200
                            unrealizedPnLPercent := 20, realizedPnL := 0 }]
            dailyPnL := 0, totalPnL := 0 }
        tradeHistory := [], orderHistory := [] }
     handleSubmitMarket st Side.sell false ((19999 : ℚ) / 2000) 3 =
        closePosition st "BTCUSDT" 3
     ∧ (closePosition st "BTCUSDT" 3).portfolio.positions.find?
        (fun p => p.symbol == "BTCUSDT") = none) := by
  have h := claim_C5
    { currentSymbol := "BTCUSDT", candles := [], currentPrice := 120
      portfolio :=
        { balance := 99000, equity := 100200, buyingPower := 99000
          positions := [{ symbol := "BTCUSDT", side := Side.buy, quantity := 10
                          avgEntryPrice := 100, currentPrice := 120, unrealizedPnL := 200
                          unrealizedPnLPercent := 20, realizedPnL := 0 }]
          dailyPnL := 0, totalPnL := 0 }
      tradeHistory := [], orderHistory := [] }
    { symbol := "BTCUSDT", side := Side.buy, quantity := 10
      avgEntryPrice := 100, currentPrice := 120, unrealizedPnL := 200
      unrealizedPnLPercent := 20, realizedPnL := 0 }
    false ((19999 : ℚ) / 2000) 3 (by rfl) (by norm_num) (by norm_num) (by norm_num)
  exact ⟨h.1, h.2.1⟩


/-! ## C6 — live tick folding -/

/-- C6: a live tick at time t belongs to the candle boundary
floor(t / intervalMs) × intervalMs (which is `t / i * i` in `ℕ`).  If the
boundary equals the current last candle\'s time the last candle becomes
{high = max(high, p), low = min(low, p), close = p} with open and volume
unchanged; a strictly later boundary appends a fresh candle seeded at the
price with volume 0; a strictly older boundary leaves the series
unchanged. -/
theorem claim_C6 (cs : List Candle) (c : Candle) (price : ℚ) (t i : ℕ)
    (hlast : cs.getLast? = some c) :
    (t / i * i = c.time →
      tickStep cs (some c) price t i =
        (cs.dropLast ++
          [{ time := t / i * i, openP := c.openP, high := max c.high price
             low := min c.low price, close := price, volume := c.volume }],
         some { time := t / i * i, openP := c.openP, high := max c.high price
                low := min c.low price, close := price, volume := c.volume }))
    ∧ (c.time < t / i * i →
      tickStep cs (some c) price t i =
        (cs ++ [{ time := t / i * i, openP := price, high := price, low := price
                  close := price, volume := 0 }],
         some { time := t / i * i, openP := price, high := price, low := price
                close := price, volume := 0 }))
    ∧ (t / i * i < c.time → tickStep cs (some c) price t i = (cs, some c)) := by
  refine ⟨?_, ?_, ?_⟩
  · intro hb
    unfold tickStep
    dsimp only
    rw [if_pos hb.symm]
    unfold updateLastCandle
    rw [hlast]
    dsimp only
    rw [if_pos hb.symm]
  · intro hb
    unfold tickStep
    dsimp only
    rw [if_neg (ne_of_lt hb), if_pos hb]
    unfold updateLastCandle
    rw [hlast]
    dsimp only
    rw [if_neg (ne_of_lt hb)]
  · intro hb
    unfold tickStep
    dsimp only
    rw [if_neg (ne_of_gt hb), if_neg (not_lt.mpr (le_of_lt hb))]

theorem claim_C6_witness :
    tickStep [{ time := 60000, openP := 5, high := 6, low := 4, close := 5, volume := 0 }]
        (some { time := 60000, openP := 5, high := 6, low := 4, close := 5, volume := 0 })
        7 70000 60000 =
      ([{ time := 60000, openP := 5, high := 7, low := 4, close := 7, volume := 0 }],
       some { time := 60000, openP := 5, high := 7, low := 4, close := 7, volume := 0 }) := by
  have h := (claim_C6
    [{ time := 60000, openP := 5, high := 6, low := 4, close := 5, volume := 0 }]
    { time := 60000, openP := 5, high := 6, low := 4, close := 5, volume := 0 }
    7 70000 60000 rfl).1 (by norm_num)
  norm_num [max_def, min_def] at h
  exact h

/-! ## C7 — series monotonicity -/

/-- openTime strictly increasing along the series. -/
def timesStrictMono (cs : List Candle) : Prop :=
  cs.Pairwise (fun a b => a.time < b.time)

/-- No two candles of the series share a time. -/
def noDupTimes (cs : List Candle) : Prop :=
  cs.Pairwise (fun a b => a.time ≠ b.time)

theorem timesStrictMono_noDupTimes {cs : List Candle} (h : timesStrictMono cs) :
    noDupTimes cs :=
  h.imp (fun hab => ne_of_lt hab)

theorem time_le_getLast {cs : List Candle} {last : Candle}
    (hmono : timesStrictMono cs) (hlast : cs.getLast? = some last) :
    ∀ a ∈ cs, a.time ≤ last.time := by
  have hne : cs ≠ [] := by
    intro h
    rw [h] at hlast
    simp at hlast
  have hl : cs.getLast hne = last := by
    rw [List.getLast?_eq_getLast cs hne] at hlast
    exact Option.some_inj.mp hlast
  have hdecomp : cs.dropLast ++ [last] = cs := by
    rw [← hl]
    exact List.dropLast_append_getLast hne
  rw [← hdecomp] at hmono
  unfold timesStrictMono at hmono
  rcases List.pairwise_append.mp hmono with ⟨h1, h2, h12⟩
  intro a ha
  rw [← hdecomp] at ha
  rcases List.mem_append.mp ha with hmem | hmem
  · exact le_of_lt (h12 a hmem last (List.mem_singleton_self last))
  · rw [List.mem_singleton.mp hmem]

theorem timesStrictMono_append {cs : List Candle} {c : Candle}
    (hmono : timesStrictMono cs) (hlt : ∀ a ∈ cs, a.time < c.time) :
    timesStrictMono (cs ++ [c]) := by
  unfold timesStrictMono at hmono ⊢
  rw [List.pairwise_append]
  exact ⟨hmono, List.pairwise_singleton _ _,
    fun a ha b hb => by rw [List.mem_singleton.mp hb]; exact hlt a ha⟩

theorem updateLastCandle_mono {cs : List Candle} (c : Candle)
    (hmono : timesStrictMono cs)
    (hle : ∀ last, cs.getLast? = some last → last.time ≤ c.time) :
    timesStrictMono (updateLastCandle cs c) := by
  unfold updateLastCandle
  cases hlast : cs.getLast? with
  | none => simp [timesStrictMono]
  | some last =>
    dsimp only
    have hle2 := hle last hlast
    by_cases heq : last.time = c.time
    · rw [if_pos heq]
      have hne : cs ≠ [] := by
        intro h
        rw [h] at hlast
        simp at hlast
      have hl : cs.getLast hne = last := by
        rw [List.getLast?_eq_getLast cs hne] at hlast
        exact Option.some_inj.mp hlast
      have hdecomp : cs.dropLast ++ [last] = cs := by
        rw [← hl]
        exact List.dropLast_append_getLast hne
      have hmono2 := hmono
      rw [← hdecomp] at hmono2
      unfold timesStrictMono at hmono2
      rcases List.pairwise_append.mp hmono2 with ⟨h1, h2, h12⟩
      refine timesStrictMono_append h1 ?_
      intro a ha
      rw [← heq]
      exact h12 a ha last (List.mem_singleton_self last)
    · rw [if_neg heq]
      have hlt : last.time < c.time := lt_of_le_of_ne hle2 heq
      exact timesStrictMono_append hmono
        (fun a ha => lt_of_le_of_lt (time_le_getLast hmono hlast a ha) hlt)


instance : IsTotal Candle (fun a b => a.time ≤ b.time) :=
  ⟨fun a b => Nat.le_total a.time b.time⟩

instance : IsTrans Candle (fun a b => a.time ≤ b.time) :=
  ⟨fun a b c hab hbc => le_trans hab hbc⟩

theorem normalizeBatch_mono (rows : List CoinbaseRow)
    (hdist : (rows.map (fun r => r.timestamp)).Pairwise (fun a b => a ≠ b)) :
    timesStrictMono (normalizeBatch rows) := by
  unfold normalizeBatch timesStrictMono
  have hsorted :
      (List.insertionSort (fun a b : Candle => a.time ≤ b.time)
        (rows.map normalizeRow)).Pairwise (fun a b : Candle => a.time ≤ b.time) :=
    List.sorted_insertionSort _ _
  have hperm := List.perm_insertionSort (fun a b : Candle => a.time ≤ b.time)
    (rows.map normalizeRow)
  have hne0 : (rows.map normalizeRow).Pairwise (fun a b : Candle => a.time ≠ b.time) := by
    rw [List.pairwise_map]
    rw [List.pairwise_map] at hdist
    refine hdist.imp (fun h => ?_)
    intro hEq
    exact h (Nat.eq_of_mul_eq_mul_right (by norm_num) hEq)
  have hne : (List.insertionSort (fun a b : Candle => a.time ≤ b.time)
      (rows.map normalizeRow)).Pairwise (fun a b : Candle => a.time ≠ b.time) :=
    (List.Perm.pairwise_iff (fun h => Ne.symm h) hperm).mpr hne0
  exact (hsorted.and hne).imp (fun h => lt_of_le_of_ne h.1 h.2)

/-- C7 (amended): the claim holds for in-order input, which is what the
tick path produces, but not unconditionally.  `updateLastCandle` keeps the
series strictly increasing and duplicate-free whenever the incoming
candle\'s time is at least the last candle\'s time (equal replaces, later
appends); `addCandle` whenever it is strictly later; the historical batch
is not merged into the existing series at all — `setCandles` replaces the
series with the sorted normalized batch, which is strictly increasing and
duplicate-free whenever the batch\'s timestamps are pairwise distinct.
A candle older than the last breaks the invariant (see the
counterexample). -/
theorem claim_C7_amended :
    (∀ (cs : List Candle) (c : Candle), timesStrictMono cs →
      (∀ last, cs.getLast? = some last → last.time ≤ c.time) →
      timesStrictMono (updateLastCandle cs c) ∧ noDupTimes (updateLastCandle cs c))
    ∧ (∀ (cs : List Candle) (c : Candle), timesStrictMono cs →
      (∀ last, cs.getLast? = some last → last.time < c.time) →
      timesStrictMono (addCandle cs c) ∧ noDupTimes (addCandle cs c))
    ∧ (∀ rows : List CoinbaseRow,
      (rows.map (fun r => r.timestamp)).Pairwise (fun a b => a ≠ b) →
      timesStrictMono (normalizeBatch rows) ∧ noDupTimes (normalizeBatch rows))
    ∧ (∀ (s : TradingState) (rows : List CoinbaseRow),
      (setCandles s (normalizeBatch rows)).candles = normalizeBatch rows) := by
  refine ⟨?_, ?_, ?_, ?_⟩
  · intro cs c hmono hle
    have h := updateLastCandle_mono c hmono hle
    exact ⟨h, timesStrictMono_noDupTimes h⟩
  · intro cs c hmono hlt
    have h : timesStrictMono (addCandle cs c) := by
      unfold addCandle
      cases hlast : cs.getLast? with
      | none =>
        have hnil : cs = [] := by
          cases cs with
          | nil => rfl
          | cons x xs => simp at hlast
        rw [hnil]
        simp [timesStrictMono]
      | some last =>
        exact timesStrictMono_append hmono
          (fun a ha => lt_of_le_of_lt (time_le_getLast hmono hlast a ha) (hlt last hlast))
    exact ⟨h, timesStrictMono_noDupTimes h⟩
  · intro rows hdist
    have h := normalizeBatch_mono rows hdist
    exact ⟨h, timesStrictMono_noDupTimes h⟩
  · intro s rows
    rfl

/-- C7 counterexample: `updateLastCandle` pushes a candle whose time
differs from the last candle even when it is older, so a strictly
increasing series is not preserved by every series-mutating operation. -/
theorem claim_C7_counterexample :
    timesStrictMono [{ time := 60000, openP := 1, high := 1, low := 1, close := 1, volume := 0 }]
    ∧ ¬ (timesStrictMono
          (updateLastCandle
            [{ time := 60000, openP := 1, high := 1, low := 1, close := 1, volume := 0 }]
            { time := 0, openP := 1, high := 1, low := 1, close := 1, volume := 0 })
        ∧ noDupTimes
          (updateLastCandle
            [{ time := 60000, openP := 1, high := 1, low := 1, close := 1, volume := 0 }]
            { time := 0, openP := 1, high := 1, low := 1, close := 1, volume := 0 })) := by
  constructor
  · simp [timesStrictMono]
  · intro h
    have h1 := h.1
    simp [updateLastCandle, timesStrictMono] at h1

theorem claim_C7_witness :
    (timesStrictMono
        (updateLastCandle
          [{ time := 60000, openP := 1, high := 1, low := 1, close := 1, volume := 0 }]
          { time := 120000, openP := 2, high := 2, low := 2, close := 2, volume := 0 })
      ∧ noDupTimes
        (updateLastCandle
          [{ time := 60000, openP := 1, high := 1, low := 1, close := 1, volume := 0 }]
          { time := 120000, openP := 2, high := 2, low := 2, close := 2, volume := 0 })) := by
  refine claim_C7_amended.1
    [{ time := 60000, openP := 1, high := 1, low := 1, close := 1, volume := 0 }]
    { time := 120000, openP := 2, high := 2, low := 2, close := 2, volume := 0 }
    (by simp [timesStrictMono]) ?_
  intro last hlast
  simp at hlast
  rw [← hlast]
  norm_num


/-! ## C8 — provider failover and source caching -/

theorem tryProvider_price_pos {env : DexEnv} {p : DexSource} {r : DexPriceResult}
    (h : tryProvider env p = some r) : 0 < r.price := by
  unfold tryProvider at h
  cases henv : env p with
  | none => rw [henv] at h; exact absurd h (by simp)
  | some raw =>
    rw [henv] at h
    dsimp only at h
    by_cases hpr : 0 < raw.price
    · rw [if_pos hpr] at h
      cases h
      exact hpr
    · rw [if_neg hpr] at h
      exact absurd h (by simp)

theorem tryProvider_source {env : DexEnv} {p : DexSource} {r : DexPriceResult}
    (h : tryProvider env p = some r) : r.source = p := by
  unfold tryProvider at h
  cases henv : env p with
  | none => rw [henv] at h; exact absurd h (by simp)
  | some raw =>
    rw [henv] at h
    dsimp only at h
    by_cases hpr : 0 < raw.price
    · rw [if_pos hpr] at h
      cases h
      rfl
    · rw [if_neg hpr] at h
      exact absurd h (by simp)

theorem walkChain_first (env : DexEnv) (l : List DexSource) :
    (walkChain env l).1 =
      (l.find? (fun p => (tryProvider env p).isSome)).bind (tryProvider env) := by
  induction l with
  | nil => rfl
  | cons p rest ih =>
    cases h : tryProvider env p with
    | some r => simp [walkChain, h, List.find?_cons]
    | none => simp [walkChain, h, List.find?_cons, ih]

theorem walkChain_price_pos {env : DexEnv} {l : List DexSource} {r : DexPriceResult}
    (h : (walkChain env l).1 = some r) : 0 < r.price := by
  induction l with
  | nil => exact absurd h (by simp [walkChain])
  | cons p rest ih =>
    by_cases hp : (tryProvider env p).isSome
    · rcases Option.isSome_iff_exists.mp hp with ⟨r0, hr0⟩
      rw [show walkChain env (p :: rest) = (some r0, [p]) by simp [walkChain, hr0]] at h
      simp at h
      rw [← h]
      exact tryProvider_price_pos hr0
    · have hnone : tryProvider env p = none := Option.not_isSome_iff_eq_none.mp hp
      have : (walkChain env (p :: rest)).1 = (walkChain env rest).1 := by
        simp [walkChain, hnone]
      rw [this] at h
      exact ih h

theorem fetchDexPrice_price_pos {env : DexEnv} {c : Bool} {pref : Option DexSource}
    {r : DexPriceResult} (h : (fetchDexPrice env c pref).1 = some r) : 0 < r.price := by
  unfold fetchDexPrice at h
  cases pref with
  | none => exact walkChain_price_pos h
  | some p =>
    dsimp only at h
    cases htry : tryProvider env p with
    | some r0 =>
      rw [htry] at h
      simp at h
      rw [← h]
      exact tryProvider_price_pos htry
    | none =>
      rw [htry] at h
      dsimp only at h
      exact walkChain_price_pos h

theorem fetchDexPrice_pref_some (env : DexEnv) (c : Bool) (p : DexSource)
    (r : DexPriceResult) (h : tryProvider env p = some r) :
    fetchDexPrice env c (some p) = (some r, [p]) := by
  unfold fetchDexPrice
  dsimp only
  rw [h]

theorem fetchDexPrice_pref_fail (env : DexEnv) (c : Bool) (p : DexSource)
    (h : tryProvider env p = none) :
    (fetchDexPrice env c (some p)).1 = (walkChain env (fallbackChain c)).1 := by
  unfold fetchDexPrice
  dsimp only
  rw [h]

theorem pollStep_caches_source (env : DexEnv) (c : Bool) (st : DexPollState)
    (r : DexPriceResult) (h : (fetchDexPrice env c (prefAfterReset st)).1 = some r) :
    (pollStep env c st).preferredSource = some r.source := by
  unfold pollStep
  dsimp only
  rw [h]
  dsimp only
  rw [if_neg (ne_of_gt (fetchDexPrice_price_pos h))]

/-- C8: `fetchDexPrice` issues a single request to the cached preferred
source and returns its successful result; on its failure or with no
preference it walks the fixed ordered chain (Jupiter, Raydium for Solana
symbols, then GeckoTerminal, then DexScreener) and returns the first
success; the polling loop caches the source of the returned result (so
after A fails and B answers, the cached preference is B), and every 60th
poll clears the preference so the full chain runs again. -/
theorem claim_C8 :
    (∀ (env : DexEnv) (c : Bool) (p : DexSource) (r : DexPriceResult),
      tryProvider env p = some r →
      fetchDexPrice env c (some p) = (some r, [p]))
    ∧ (∀ (env : DexEnv) (c : Bool) (p : DexSource),
      tryProvider env p = none →
      (fetchDexPrice env c (some p)).1 = (walkChain env (fallbackChain c)).1)
    ∧ (∀ (env : DexEnv) (c : Bool),
      fetchDexPrice env c none = walkChain env (fallbackChain c))
    ∧ (fallbackChain true =
        [DexSource.jupiter, DexSource.raydium, DexSource.gecko, DexSource.dexscreener]
      ∧ fallbackChain false = [DexSource.gecko, DexSource.dexscreener])
    ∧ (∀ (env : DexEnv) (l : List DexSource),
      (walkChain env l).1 =
        (l.find? (fun p => (tryProvider env p).isSome)).bind (tryProvider env))
    ∧ (∀ (env : DexEnv) (p : DexSource) (r : DexPriceResult),
      tryProvider env p = some r → r.source = p)
    ∧ (∀ (env : DexEnv) (c : Bool) (st : DexPollState) (r : DexPriceResult),
      (fetchDexPrice env c (prefAfterReset st)).1 = some r →
      (pollStep env c st).preferredSource = some r.source)
    ∧ (∀ (env : DexEnv) (c : Bool) (st : DexPollState) (A : DexSource)
        (r : DexPriceResult),
      prefAfterReset st = some A → tryProvider env A = none →
      (walkChain env (fallbackChain c)).1 = some r →
      (pollStep env c st).preferredSource = some r.source)
    ∧ (∀ (st : DexPollState), (st.pollCount + 1) % 60 = 0 →
      prefAfterReset st = none)
    ∧ (∀ (env : DexEnv) (c : Bool) (st : DexPollState),
      (st.pollCount + 1) % 60 = 0 →
      (fetchDexPrice env c (prefAfterReset st)).2 =
        (walkChain env (fallbackChain c)).2) := by
  refine ⟨fetchDexPrice_pref_some, fetchDexPrice_pref_fail, fun env c => rfl,
    ⟨rfl, rfl⟩, walkChain_first, fun env p r h => tryProvider_source h,
    pollStep_caches_source, ?_, ?_, ?_⟩
  · intro env c st A r hpref htry hwalk
    refine pollStep_caches_source env c st r ?_
    rw [hpref, fetchDexPrice_pref_fail env c A htry, hwalk]
  · intro st h
    unfold prefAfterReset
    rw [if_pos h]
  · intro env c st h
    have hpref : prefAfterReset st = none := by
      unfold prefAfterReset
      rw [if_pos h]
    rw [hpref]
    rfl

/-- C8 witness: Jupiter cached but failing, Raydium answering: the poll
caches Raydium. -/
theorem claim_C8_witness :
    (let env : DexEnv := fun p =>
      if p = DexSource.raydium then
        some { price := 5, change24h := 0, volume24h := 0, pairAddress := "" }
      else none
     (pollStep env true
        { pollCount := 0, preferredSource := some DexSource.jupiter, lastPrice := 0
          connectionStatus := ConnStatus.connecting }).preferredSource =
      some DexSource.raydium) := by
  have h := claim_C8.2.2.2.2.2.2.2.1
    (fun p =>
      if p = DexSource.raydium then
        some { price := 5, change24h := 0, volume24h := 0, pairAddress := "" }
      else none)
    true
    { pollCount := 0, preferredSource := some DexSource.jupiter, lastPrice := 0
      connectionStatus := ConnStatus.connecting }
    DexSource.jupiter
    { price := 5, change24h := 0, volume24h := 0, pairAddress := ""
      source := DexSource.raydium }
    (by simp [prefAfterReset])
    (by simp [tryProvider])
    (by simp [walkChain, fallbackChain, tryProvider])
  exact h

/-! ## C9 — error status only before any first success -/

/-- C9: a failed poll sets ConnectionStatus to `error` only when no
successful price was ever obtained (`lastPriceRef` still 0); once a poll
succeeded, `lastPrice` is non-zero and later failures leave the status
unchanged, so the status never becomes `error` again. -/
theorem claim_C9 :
    (∀ (env : DexEnv) (c : Bool) (st : DexPollState),
      (fetchDexPrice env c (prefAfterReset st)).1 = none → st.lastPrice = 0 →
      (pollStep env c st).connectionStatus = ConnStatus.error)
    ∧ (∀ (env : DexEnv) (c : Bool) (st : DexPollState),
      (fetchDexPrice env c (prefAfterReset st)).1 = none → st.lastPrice ≠ 0 →
      (pollStep env c st).connectionStatus = st.connectionStatus)
    ∧ (∀ (env : DexEnv) (c : Bool) (st : DexPollState) (r : DexPriceResult),
      (fetchDexPrice env c (prefAfterReset st)).1 = some r →
      (pollStep env c st).connectionStatus = ConnStatus.connected
        ∧ (pollStep env c st).lastPrice = r.price
        ∧ (pollStep env c st).lastPrice ≠ 0)
    ∧ (∀ (c : Bool) (envs : List DexEnv) (st : DexPollState),
      st.lastPrice ≠ 0 → st.connectionStatus ≠ ConnStatus.error →
      (runPolls c envs st).connectionStatus ≠ ConnStatus.error) := by
  have hfail0 : ∀ (env : DexEnv) (c : Bool) (st : DexPollState),
      (fetchDexPrice env c (prefAfterReset st)).1 = none → st.lastPrice = 0 →
      (pollStep env c st).connectionStatus = ConnStatus.error := by
    intro env c st h h0
    unfold pollStep
    dsimp only
    rw [h]
    dsimp only
    rw [if_pos h0]
  have hfail1 : ∀ (env : DexEnv) (c : Bool) (st : DexPollState),
      (fetchDexPrice env c (prefAfterReset st)).1 = none → st.lastPrice ≠ 0 →
      (pollStep env c st).connectionStatus = st.connectionStatus := by
    intro env c st h h0
    unfold pollStep
    dsimp only
    rw [h]
    dsimp only
    rw [if_neg h0]
  have hsucc : ∀ (env : DexEnv) (c : Bool) (st : DexPollState) (r : DexPriceResult),
      (fetchDexPrice env c (prefAfterReset st)).1 = some r →
      (pollStep env c st).connectionStatus = ConnStatus.connected
        ∧ (pollStep env c st).lastPrice = r.price
        ∧ (pollStep env c st).lastPrice ≠ 0 := by
    intro env c st r h
    have hpos := fetchDexPrice_price_pos h
    unfold pollStep
    dsimp only
    rw [h]
    dsimp only
    rw [if_neg (ne_of_gt hpos)]
    exact ⟨rfl, rfl, ne_of_gt hpos⟩
  have hstep : ∀ (env : DexEnv) (c : Bool) (st : DexPollState),
      st.lastPrice ≠ 0 → st.connectionStatus ≠ ConnStatus.error →
      (pollStep env c st).lastPrice ≠ 0
        ∧ (pollStep env c st).connectionStatus ≠ ConnStatus.error := by
    intro env c st h0 herr
    cases hfetch : (fetchDexPrice env c (prefAfterReset st)).1 with
    | some r =>
      rcases hsucc env c st r hfetch with ⟨hc, hp, hnz⟩
      rw [hc]
      exact ⟨hnz, by simp⟩
    | none =>
      have hlp : (pollStep env c st).lastPrice = st.lastPrice := by
        unfold pollStep
        dsimp only
        rw [hfetch]
      rw [hfail1 env c st hfetch h0, hlp]
      exact ⟨h0, herr⟩
  refine ⟨hfail0, hfail1, hsucc, ?_⟩
  intro c envs
  induction envs with
  | nil => intro st h0 herr; exact herr
  | cons env rest ih =>
    intro st h0 herr
    have hs := hstep env c st h0 herr
    exact ih (pollStep env c st) hs.1 hs.2

/-- C9 witness: a session that has already obtained a price (lastPrice 5)
keeps a non-error status through a sequence of total-failure polls. -/
theorem claim_C9_witness :
    (runPolls true [fun p => none, fun p => none]
      { pollCount := 3, preferredSource := none, lastPrice := 5
        connectionStatus := ConnStatus.connected }).connectionStatus ≠
      ConnStatus.error := by
  refine claim_C9.2.2.2 true [fun p => none, fun p => none]
    { pollCount := 3, preferredSource := none, lastPrice := 5
      connectionStatus := ConnStatus.connected }
    (by norm_num) (by simp)

end TradingSim
